import Mathlib

/-!
# ng-toastly — shallow embedding and verification

Shallow embedding of the toast lifecycle engine (`ToastService`), the
animation orchestrator (`AnimationService`), and the hover/ARIA logic of
`ToastItemComponent` / `ToastContainerComponent` of the ng-toastly
repository, together with theorems settling the specification claims.

Conventions:
* JavaScript numbers that the library treats as integers (durations in
  milliseconds, progress percentages, configuration counts, timestamps)
  are modelled as `Int` (or `Nat` where the source value is a counter).
* `undefined` optional fields become `Option`.
* Thrown `ToastError`s become `Except ToastError`.
* The `activeTimers` JavaScript `Map` becomes an insertion-ordered
  association list with `Map.set`/`Map.get`/`Map.delete` semantics.
* Presentation-only passthrough fields that no operation reads
  (`styleClass`, `iconTemplate`, `avatarUrl`, `actions`) are omitted from
  the `Toast` record; every field any claim or operation inspects is kept.
-/

namespace Toastly

/-- `ToastType` from `toast.type.ts`: `'info' | 'success' | 'warning' | 'danger'`. -/
inductive ToastType where
  | info
  | success
  | warning
  | danger
deriving DecidableEq, Repr

/-- `ToastTheme` from `toast.type.ts`: `'light' | 'dark'`. -/
inductive ToastTheme where
  | light
  | dark
deriving DecidableEq, Repr

/-- `ToastPosition` from `toast.type.ts`: the six canonical placements. -/
inductive ToastPosition where
  | topRight
  | topLeft
  | bottomRight
  | bottomLeft
  | topCenter
  | bottomCenter
deriving DecidableEq, Repr

/-- The string literal each `ToastPosition` union member denotes in the source. -/
def ToastPosition.toLiteral : ToastPosition → String
  | .topRight => "top-right"
  | .topLeft => "top-left"
  | .bottomRight => "bottom-right"
  | .bottomLeft => "bottom-left"
  | .topCenter => "top-center"
  | .bottomCenter => "bottom-center"

/-- `ToastErrorCode` from `toast-error.type.ts`. -/
inductive ToastErrorCode where
  | TOAST_NOT_FOUND
  | INVALID_DURATION
  | INVALID_PROGRESS_VALUE
  | MAXIMUM_TOASTS_EXCEEDED
  | INVALID_CONFIGURATION
deriving DecidableEq, Repr

/-- `ToastError` from `toast-error.type.ts`. -/
structure ToastError where
  code : ToastErrorCode
  message : String
  details : Option String
deriving DecidableEq, Repr

/-- `createToastError` from `toast-error.type.ts`. -/
def createToastError (code : ToastErrorCode) (message : String)
    (details : Option String) : ToastError :=
  { code := code, message := message, details := details }

/-- `TOAST_ERROR_MESSAGES` from `toast-error.type.ts`. -/
def TOAST_ERROR_MESSAGES : ToastErrorCode → String
  | .TOAST_NOT_FOUND =>
      "The specified toast ID does not exist in the current toast collection."
  | .INVALID_DURATION =>
      "Toast duration must be a non-negative number in milliseconds."
  | .INVALID_PROGRESS_VALUE =>
      "Progress value must be between 0 and 100 inclusive."
  | .MAXIMUM_TOASTS_EXCEEDED =>
      "Maximum number of visible toasts has been reached."
  | .INVALID_CONFIGURATION =>
      "Invalid toast configuration provided."

-- ============================================================================
-- Constants (`toast.constants.ts`)
-- ============================================================================

def TOAST_AUTO_DISMISS_DELAY_MS : Int := 5000

def TOAST_ANIMATION_DURATION_MS : Int := 300

def TOAST_MINIMUM_DURATION_MS : Int := 1000

def MAXIMUM_VISIBLE_TOASTS : Int := 5

def PROGRESS_MINIMUM_PERCENT : Int := 0

def PROGRESS_MAXIMUM_PERCENT : Int := 100

def TOAST_ID_PREFIX : String := "toastly-"

/-- `TOAST_ITEM_ROLES` from `toast.constants.ts`, a
`Record<string, string>` keyed by toast type, as an association list. -/
def TOAST_ITEM_ROLES : List (String × String) :=
  [("info", "status"), ("success", "status"),
   ("warning", "alert"), ("danger", "alert")]

/-- `ToastGlobalConfig` from `toast-config.type.ts` (the custom animation
override and preset live in the animation layer and are passed to it
directly, so they are not needed here). -/
structure ToastGlobalConfig where
  position : ToastPosition
  theme : ToastTheme
  defaultDurationMs : Int
  maximumVisibleToasts : Int
  newestOnTop : Bool
  pauseOnHover : Bool
  dismissibleByDefault : Bool
  defaultType : ToastType
deriving DecidableEq, Repr

/-- `DEFAULT_TOAST_CONFIG` from `toast.constants.ts`. -/
def DEFAULT_TOAST_CONFIG : ToastGlobalConfig :=
  { position := .bottomRight
    theme := .light
    defaultDurationMs := TOAST_AUTO_DISMISS_DELAY_MS
    maximumVisibleToasts := MAXIMUM_VISIBLE_TOASTS
    newestOnTop := true
    pauseOnHover := true
    dismissibleByDefault := true
    defaultType := .info }

-- ============================================================================
-- Data model (`toast.type.ts`)
-- ============================================================================

/-- `ToastPayload` from `toast.type.ts` (fields any operation reads). -/
structure ToastPayload where
  message : String
  title : Option String := none
  toastType : Option ToastType := none
  theme : Option ToastTheme := none
  durationMs : Option Int := none
  dismissible : Option Bool := none
  progressPercent : Option Int := none
  position : Option ToastPosition := none
deriving DecidableEq, Repr

/-- `Toast` from `toast.type.ts` (fields any operation reads). -/
structure Toast where
  id : String
  createdAt : Int
  message : String
  title : Option String
  toastType : ToastType
  theme : ToastTheme
  durationMs : Int
  dismissible : Bool
  progressPercent : Option Int
  position : ToastPosition
deriving DecidableEq, Repr

-- ============================================================================
-- JavaScript `Map` (insertion-ordered association list) and `Array.slice`
-- ============================================================================

/-- `Map.get`: value of the first (unique) entry with the given key. -/
def mapGet (m : List (String × Int)) (k : String) : Option Int :=
  (m.find? (fun kv => kv.1 = k)).map (·.2)

/-- `Map.set`: overwrite the entry (a JavaScript `Map` holds at most one
per key) in place if the key is present, otherwise append at the end
(`Map` keeps insertion order). -/
def mapSet : List (String × Int) → String → Int → List (String × Int)
  | [], k, v => [(k, v)]
  | kv :: rest, k, v =>
      if kv.1 = k then (k, v) :: rest else kv :: mapSet rest k v

/-- `Map.delete`: afterwards no entry with the given key remains. -/
def mapDelete (m : List (String × Int)) (k : String) : List (String × Int) :=
  m.filter (fun kv => kv.1 ≠ k)

/-- JavaScript index resolution used by `Array.prototype.slice`: a negative
index counts back from the end (clamped at 0), a non-negative one is clamped
at the length.  Note `slice(-0)` is `slice(0)`: negating the number `0`
stays `0`, which this function reproduces since `-(0 : Int) = 0`. -/
def jsSliceIndex (len : Nat) (i : Int) : Nat :=
  if i < 0 then (max ((len : Int) + i) 0).toNat else (min i (len : Int)).toNat

-- ============================================================================
-- ToastService state (`toast.service.ts`)
-- ============================================================================

/-- The mutable fields of `ToastService`: the id counter, the
`activeTimers` map (toast id ↦ the delay in milliseconds the pending
`setTimeout` was scheduled with) and the `toastsSignal` collection. -/
structure ToastState where
  toastIdCounter : Nat
  activeTimers : List (String × Int)
  toasts : List Toast
deriving DecidableEq, Repr

/-- The state of a freshly constructed `ToastService`. -/
def initialState : ToastState :=
  { toastIdCounter := 0, activeTimers := [], toasts := [] }

namespace ToastService

/-- `validateProgressValue` (private): `throw` becomes `Except.error`. -/
def validateProgressValue (progressPercent : Int) : Except ToastError Unit :=
  let isValidProgress :=
    progressPercent ≥ PROGRESS_MINIMUM_PERCENT ∧
    progressPercent ≤ PROGRESS_MAXIMUM_PERCENT
  if isValidProgress then
    .ok ()
  else
    .error (createToastError .INVALID_PROGRESS_VALUE
      (TOAST_ERROR_MESSAGES .INVALID_PROGRESS_VALUE)
      (some s!"Received: {progressPercent}%"))

/-- `validatePayload` (private): `durationMs` is checked first, then
`progressPercent`. -/
def validatePayload (payload : ToastPayload) : Except ToastError Unit := do
  match payload.durationMs with
  | some d =>
      if d < 0 then
        throw (createToastError .INVALID_DURATION
          (TOAST_ERROR_MESSAGES .INVALID_DURATION)
          (some s!"Received: {d}ms"))
  | none => pure ()
  match payload.progressPercent with
  | some p => validateProgressValue p
  | none => pure ()

/-- `resolveDuration` (private). -/
def resolveDuration (cfg : ToastGlobalConfig)
    (providedDurationMs : Option Int) : Int :=
  match providedDurationMs with
  | none => cfg.defaultDurationMs
  | some d => if d = 0 then 0 else max d TOAST_MINIMUM_DURATION_MS

/-- `generateToastId` (private): increments the counter and interpolates
`Date.now()` (the `now` argument) and the counter after the prefix. -/
def generateToastId (now : Int) (counter : Nat) : String :=
  TOAST_ID_PREFIX ++ s!"{now}-{counter}"

/-- `createToastFromPayload` (private); `now` stands for `Date.now()`. -/
def createToastFromPayload (cfg : ToastGlobalConfig) (now : Int)
    (counter : Nat) (payload : ToastPayload) : Toast :=
  { id := generateToastId now counter
    createdAt := now
    message := payload.message
    title := payload.title
    toastType := payload.toastType.getD cfg.defaultType
    theme := payload.theme.getD cfg.theme
    durationMs := resolveDuration cfg payload.durationMs
    dismissible := payload.dismissible.getD cfg.dismissibleByDefault
    progressPercent := payload.progressPercent
    position := payload.position.getD cfg.position }

/-- `addToast` (private): prepend when `newestOnTop`, append otherwise. -/
def addToast (cfg : ToastGlobalConfig) (toast : Toast)
    (toasts : List Toast) : List Toast :=
  if cfg.newestOnTop then toast :: toasts else toasts ++ [toast]

/-- `scheduleAutoDismissIfNeeded` (private): no timer when
`durationMs <= 0`, otherwise record a pending timer for the full
`durationMs` under the toast's id. -/
def scheduleAutoDismissIfNeeded (toast : Toast)
    (timers : List (String × Int)) : List (String × Int) :=
  if toast.durationMs ≤ 0 then timers
  else mapSet timers toast.id toast.durationMs

/-- `clearTimerForToast` (private). -/
def clearTimerForToast (toastId : String)
    (timers : List (String × Int)) : List (String × Int) :=
  match mapGet timers toastId with
  | some _ => mapDelete timers toastId
  | none => timers

/-- `show`: validate, build, insert, schedule; returns the new id and the
new state (named `showToast` because `show` is reserved in Lean). -/
def showToast (cfg : ToastGlobalConfig) (now : Int) (s : ToastState)
    (payload : ToastPayload) : Except ToastError (String × ToastState) := do
  validatePayload payload
  let counter := s.toastIdCounter + 1
  let toast := createToastFromPayload cfg now counter payload
  let toasts := addToast cfg toast s.toasts
  let timers := scheduleAutoDismissIfNeeded toast s.activeTimers
  pure (toast.id,
    { toastIdCounter := counter, activeTimers := timers, toasts := toasts })

/-- `dismiss`: clear any timer for the id, then drop the toast. -/
def dismiss (toastId : String) (s : ToastState) : ToastState :=
  { s with
    activeTimers := clearTimerForToast toastId s.activeTimers
    toasts := s.toasts.filter (fun t => t.id ≠ toastId) }

/-- `dismissAll`: clear every timer and empty the collection. -/
def dismissAll (s : ToastState) : ToastState :=
  { s with activeTimers := [], toasts := [] }

/-- `updateProgress`: validate the percentage, then rewrite the matching
toast (an unknown id maps nothing and is silently dropped). -/
def updateProgress (toastId : String) (progressPercent : Int)
    (s : ToastState) : Except ToastError ToastState := do
  validateProgressValue progressPercent
  pure { s with
    toasts := s.toasts.map (fun t =>
      if t.id = toastId then { t with progressPercent := some progressPercent }
      else t) }

/-- `pauseTimer`: clear the timer without touching the collection. -/
def pauseTimer (toastId : String) (s : ToastState) : ToastState :=
  { s with activeTimers := clearTimerForToast toastId s.activeTimers }

/-- `resumeTimer`: if the toast still exists and `durationMs > 0`,
schedule a new full-length timer. -/
def resumeTimer (toastId : String) (s : ToastState) : ToastState :=
  match s.toasts.find? (fun t => t.id = toastId) with
  | some toast =>
      if toast.durationMs > 0 then
        { s with activeTimers := scheduleAutoDismissIfNeeded toast s.activeTimers }
      else s
  | none => s

/-- `info` convenience wrapper: `show({...options, message, type: 'info'})`. -/
def info (cfg : ToastGlobalConfig) (now : Int) (s : ToastState)
    (message : String) : Except ToastError (String × ToastState) :=
  showToast cfg now s { message := message, toastType := some .info }

/-- `visibleToasts` computed signal: `slice(0, maxVisible)` when
`newestOnTop`, `slice(-maxVisible)` otherwise. -/
def visibleToasts (cfg : ToastGlobalConfig) (toasts : List Toast) :
    List Toast :=
  if cfg.newestOnTop then
    toasts.take (jsSliceIndex toasts.length cfg.maximumVisibleToasts)
  else
    toasts.drop (jsSliceIndex toasts.length (-cfg.maximumVisibleToasts))

end ToastService

-- ============================================================================
-- Event semantics: the ways the engine's state can evolve at runtime
-- ============================================================================

/-- One externally triggered operation on the service.  `timerFire id` is
the asynchronous firing of the auto-dismiss `setTimeout` for `id`; its
callback runs `dismiss(id)`, and it can only fire while the timer is still
booked in `activeTimers` (a cleared timeout never runs). -/
inductive Event where
  | show (payload : ToastPayload) (now : Int)
  | dismiss (toastId : String)
  | dismissAll
  | updateProgress (toastId : String) (progressPercent : Int)
  | pauseTimer (toastId : String)
  | resumeTimer (toastId : String)
  | timerFire (toastId : String)

/-- Apply one event.  A validation error leaves the state untouched
(`show`/`updateProgress` throw before any mutation). -/
def step (cfg : ToastGlobalConfig) (s : ToastState) : Event → ToastState
  | .show payload now =>
      match ToastService.showToast cfg now s payload with
      | .ok (_, s') => s'
      | .error _ => s
  | .dismiss toastId => ToastService.dismiss toastId s
  | .dismissAll => ToastService.dismissAll s
  | .updateProgress toastId p =>
      match ToastService.updateProgress toastId p s with
      | .ok s' => s'
      | .error _ => s
  | .pauseTimer toastId => ToastService.pauseTimer toastId s
  | .resumeTimer toastId => ToastService.resumeTimer toastId s
  | .timerFire toastId =>
      match mapGet s.activeTimers toastId with
      | some _ => ToastService.dismiss toastId s
      | none => s

/-- A state is reachable when some event sequence leads to it from the
freshly constructed service. -/
def Reachable (cfg : ToastGlobalConfig) (s : ToastState) : Prop :=
  ∃ events : List Event, s = events.foldl (step cfg) initialState

/-- Timer-bookkeeping invariant: every booked auto-dismiss timer belongs
to a toast still present in the collection whose resolved duration is
positive (timers cannot outlive their toast, and a `durationMs = 0` toast
never has one). -/
def TimersInv (s : ToastState) : Prop :=
  ∀ kv ∈ s.activeTimers, ∃ t ∈ s.toasts, t.id = kv.1 ∧ 0 < t.durationMs

-- ============================================================================
-- Animation layer (`animation.types.ts`, `animation.constants.ts`,
-- `animation.service.ts`)
-- ============================================================================

/-- `AnimationPreset` union: `'slide' | 'fade' | 'bounce' | 'none'`. -/
inductive AnimationPreset where
  | slide
  | fade
  | bounce
  | none
deriving DecidableEq, Repr

/-- `AnimationDirection` union: `'left' | 'right' | 'top' | 'bottom'`. -/
inductive AnimationDirection where
  | left
  | right
  | top
  | bottom
deriving DecidableEq, Repr

def ANIMATION_DEFAULT_DURATION_MS : Int := 300

def ANIMATION_REDUCED_MOTION_DURATION_MS : Int := 100

def ANIMATION_DEFAULT_EASING : String := "cubic-bezier(0.4, 0, 0.2, 1)"

def DEFAULT_ANIMATION_PRESET : AnimationPreset := .slide

def REDUCED_MOTION_PRESET : AnimationPreset := .fade

/-- The three preset definition objects imported by the service
(`slideAnimation`, `fadeAnimation`, `bounceAnimation`); the claims only
need their identity, not their keyframes. -/
inductive AnimationPresetDefinition where
  | slideAnimation
  | fadeAnimation
  | bounceAnimation
deriving DecidableEq, Repr

/-- `PRESET_MAP` from `animation.service.ts` (`none` maps to `null`). -/
def PRESET_MAP : AnimationPreset → Option AnimationPresetDefinition
  | .slide => some .slideAnimation
  | .fade => some .fadeAnimation
  | .bounce => some .bounceAnimation
  | .none => Option.none

/-- Model of `String.prototype.includes` (non-empty needle): some suffix
of the receiver starts with the needle. -/
def jsIncludes (s sub : String) : Bool :=
  (List.range (s.data.length + 1)).any (fun i => sub.data.isPrefixOf (s.data.drop i))

/-- Model of `String.prototype.startsWith`. -/
def jsStartsWith (s sub : String) : Bool :=
  sub.data.isPrefixOf s.data

/-- Presence of the optional `CustomAnimation` callbacks (the callbacks
themselves run outside the model; only whether each phase is overridden
matters to the orchestration logic). -/
structure CustomAnimation where
  enter : Bool
  leave : Bool
deriving DecidableEq, Repr

/-- What `runEnterAnimation`/`runLeaveAnimation` end up doing to the
element: run the custom callback, set a terminal opacity, or run a preset
definition with a direction, duration and easing. -/
inductive AnimationOutcome where
  | custom
  | setOpacity (value : String)
  | preset (presetDef : AnimationPresetDefinition)
      (direction : AnimationDirection) (durationMs : Int) (easing : String)
deriving DecidableEq, Repr

namespace AnimationService

/-- `getDirectionFromPosition` from `animation.service.ts`, operating on
the position string exactly as the source does. -/
def getDirectionFromPosition (position : String) : AnimationDirection :=
  if jsIncludes position "left" then .left
  else if jsIncludes position "right" then .right
  else if jsStartsWith position "top" then .top
  else .bottom

/-- `runEnterAnimation` from `animation.service.ts` as a pure decision
function (`prefersReducedMotion` is the sampled media-query signal). -/
def runEnterAnimation (prefersReducedMotion : Bool) (position : String)
    (preset : AnimationPreset) (custom : Option CustomAnimation)
    (durationMs : Option Int) (easing : Option String) : AnimationOutcome :=
  if (custom.map (·.enter)).getD false then
    .custom
  else
    let effectivePreset :=
      if prefersReducedMotion then REDUCED_MOTION_PRESET else preset
    if effectivePreset = AnimationPreset.none then
      .setOpacity "1"
    else
      match PRESET_MAP effectivePreset with
      | Option.none => .setOpacity "1"
      | some presetDef =>
          let direction := getDirectionFromPosition position
          let duration :=
            if prefersReducedMotion then ANIMATION_REDUCED_MOTION_DURATION_MS
            else durationMs.getD ANIMATION_DEFAULT_DURATION_MS
          let easingValue := easing.getD ANIMATION_DEFAULT_EASING
          .preset presetDef direction duration easingValue

/-- `runLeaveAnimation` from `animation.service.ts`: identical shape,
with the `leave` callback and terminal opacity `'0'`. -/
def runLeaveAnimation (prefersReducedMotion : Bool) (position : String)
    (preset : AnimationPreset) (custom : Option CustomAnimation)
    (durationMs : Option Int) (easing : Option String) : AnimationOutcome :=
  if (custom.map (·.leave)).getD false then
    .custom
  else
    let effectivePreset :=
      if prefersReducedMotion then REDUCED_MOTION_PRESET else preset
    if effectivePreset = AnimationPreset.none then
      .setOpacity "0"
    else
      match PRESET_MAP effectivePreset with
      | Option.none => .setOpacity "0"
      | some presetDef =>
          let direction := getDirectionFromPosition position
          let duration :=
            if prefersReducedMotion then ANIMATION_REDUCED_MOTION_DURATION_MS
            else durationMs.getD ANIMATION_DEFAULT_DURATION_MS
          let easingValue := easing.getD ANIMATION_DEFAULT_EASING
          .preset presetDef direction duration easingValue

end AnimationService

-- ============================================================================
-- Component layer (`toast-item.component.ts`, `toast-container.component.ts`)
-- ============================================================================

/-- The string literal each `ToastType` union member denotes. -/
def ToastType.toLiteral : ToastType → String
  | .info => "info"
  | .success => "success"
  | .warning => "warning"
  | .danger => "danger"

/-- A call the components make into the service's timer API. -/
inductive TimerCall where
  | pause (toastId : String)
  | resume (toastId : String)
deriving DecidableEq, Repr

namespace ToastItemComponent

/-- `ariaRole` computed signal:
`TOAST_ITEM_ROLES[toastType] ?? 'status'` over the string key. -/
def ariaRole (toastType : String) : String :=
  ((TOAST_ITEM_ROLES.find? (fun kv => kv.1 = toastType)).map (·.2)).getD "status"

/-- `handleMouseEnter`: calls `pauseTimer` only when `pauseOnHover` is
set (the service's `pauseOnHover()` signal reads the merged global
config). -/
def handleMouseEnter (cfg : ToastGlobalConfig) (toastId : String) :
    List TimerCall :=
  if cfg.pauseOnHover then [.pause toastId] else []

/-- `handleMouseLeave`: calls `resumeTimer` only when `pauseOnHover` is set. -/
def handleMouseLeave (cfg : ToastGlobalConfig) (toastId : String) :
    List TimerCall :=
  if cfg.pauseOnHover then [.resume toastId] else []

end ToastItemComponent

namespace ToastContainerComponent

/-- `handleMouseEnter`: calls `pauseTimer` unconditionally. -/
def handleMouseEnter (toastId : String) : List TimerCall :=
  [.pause toastId]

/-- `handleMouseLeave`: calls `resumeTimer` unconditionally. -/
def handleMouseLeave (toastId : String) : List TimerCall :=
  [.resume toastId]

/-- `filteredToasts` computed signal: the visible toasts whose resolved
position matches this container's resolved position. -/
def filteredToasts (cfg : ToastGlobalConfig)
    (containerPosition : ToastPosition) (toasts : List Toast) : List Toast :=
  (ToastService.visibleToasts cfg toasts).filter
    (fun t => t.position = containerPosition)

end ToastContainerComponent

/-- A pointer entering a rendered toast: the container's template binds
`(mouseenter)` on each `<toastly-item>`, and the item component itself
binds a host `(mouseenter)` listener, so one hover-enter event fires both
handlers. -/
def hoverEnterCalls (cfg : ToastGlobalConfig) (toastId : String) :
    List TimerCall :=
  ToastItemComponent.handleMouseEnter cfg toastId ++
    ToastContainerComponent.handleMouseEnter toastId

/-- A pointer leaving a rendered toast: both `(mouseleave)` handlers fire. -/
def hoverLeaveCalls (cfg : ToastGlobalConfig) (toastId : String) :
    List TimerCall :=
  ToastItemComponent.handleMouseLeave cfg toastId ++
    ToastContainerComponent.handleMouseLeave toastId

-- ============================================================================
-- Concrete runs used to instantiate the theorems
-- ============================================================================

/-- The toast `info('First')` creates at `Date.now() = 0` on a fresh service. -/
def toastAlpha : Toast :=
  { id := "toastly-0-1", createdAt := 0, message := "First", title := none
    toastType := .info, theme := .light, durationMs := 5000
    dismissible := true, progressPercent := none, position := .bottomRight }

/-- The toast a second `info('Second')` call creates at `Date.now() = 0`. -/
def toastBeta : Toast :=
  { id := "toastly-0-2", createdAt := 0, message := "Second", title := none
    toastType := .info, theme := .light, durationMs := 5000
    dismissible := true, progressPercent := none, position := .bottomRight }

/-- The service state after just `info('First')` under the default
configuration. -/
def singleState : ToastState :=
  { toastIdCounter := 1
    activeTimers := [("toastly-0-1", 5000)]
    toasts := [toastAlpha] }

/-- The service state after `info('First')` then `info('Second')` under the
default configuration (newest on top, both auto-dismiss timers pending). -/
def pairState : ToastState :=
  { toastIdCounter := 2
    activeTimers := [("toastly-0-1", 5000), ("toastly-0-2", 5000)]
    toasts := [toastBeta, toastAlpha] }

/-- The toast `show({message: 't', durationMs: 1000})` creates at
`Date.now() = 7` on a fresh service. -/
def timedToast : Toast :=
  { id := "toastly-7-1", createdAt := 7, message := "t", title := none
    toastType := .info, theme := .light, durationMs := 1000
    dismissible := true, progressPercent := none, position := .bottomRight }

/-- The service state right after that `show`: one toast, one pending
1000ms timer. -/
def timedState : ToastState :=
  { toastIdCounter := 1
    activeTimers := [("toastly-7-1", 1000)]
    toasts := [timedToast] }

/-- A global configuration with `maximumVisibleToasts: 0` and
`newestOnTop: false` (all other fields at their defaults). -/
def windowConfigZero : ToastGlobalConfig :=
  { DEFAULT_TOAST_CONFIG with maximumVisibleToasts := 0, newestOnTop := false }

/-- The state reached under `windowConfigZero` by one `show({message: 'x'})`. -/
def windowStateOne : ToastState :=
  step windowConfigZero initialState (.show { message := "x" } 0)

/-- The state after calling `info('Toast')` ten times on a fresh service
under the default configuration (`maximumVisibleToasts: 5`,
`newestOnTop: true`). -/
def tenInfoState : ToastState :=
  (List.range 10).foldl
    (fun s _ =>
      step DEFAULT_TOAST_CONFIG s
        (.show { message := "Toast", toastType := some ToastType.info } 0))
    initialState

end Toastly

-- ============================================================================
-- Supporting lemmas
-- ============================================================================

namespace Toastly

theorem mapGet_mapSet_self (m : List (String × Int)) (k : String) (v : Int) :
    mapGet (mapSet m k v) k = some v := by
  induction m with
  | nil => simp [mapSet, mapGet]
  | cons hd tl ih =>
      by_cases hk : hd.1 = k
      · simp [mapSet, mapGet, hk]
      · simpa [mapSet, mapGet, hk] using ih

theorem mem_mapSet {m : List (String × Int)} {k : String} {v : Int}
    {kv : String × Int} (h : kv ∈ mapSet m k v) : kv = (k, v) ∨ kv ∈ m := by
  induction m with
  | nil => simpa [mapSet] using h
  | cons hd tl ih =>
      by_cases hk : hd.1 = k
      · rw [mapSet, if_pos hk] at h
        rcases List.mem_cons.mp h with h | h
        · exact .inl h
        · exact .inr (List.mem_cons_of_mem _ h)
      · rw [mapSet, if_neg hk] at h
        rcases List.mem_cons.mp h with h | h
        · exact .inr (h ▸ List.mem_cons_self hd tl)
        · rcases ih h with h | h
          · exact .inl h
          · exact .inr (List.mem_cons_of_mem _ h)

theorem mapGet_mapDelete_self (m : List (String × Int)) (k : String) :
    mapGet (mapDelete m k) k = Option.none := by
  simp only [mapGet, mapDelete, Option.map_eq_none']
  rw [List.find?_eq_none]
  intro kv hkv
  have := (List.mem_filter.mp hkv).2
  simpa using this

theorem clearTimerForToast_eq_of_none {m : List (String × Int)}
    {toastId : String} (h : mapGet m toastId = Option.none) :
    ToastService.clearTimerForToast toastId m = m := by
  unfold ToastService.clearTimerForToast
  rw [h]

theorem clearTimerForToast_eq_of_some {m : List (String × Int)}
    {toastId : String} {v : Int} (h : mapGet m toastId = some v) :
    ToastService.clearTimerForToast toastId m = mapDelete m toastId := by
  unfold ToastService.clearTimerForToast
  rw [h]

theorem mem_clearTimerForToast {m : List (String × Int)} {toastId : String}
    {kv : String × Int} (h : kv ∈ ToastService.clearTimerForToast toastId m) :
    kv ∈ m := by
  unfold ToastService.clearTimerForToast at h
  split at h
  · exact (List.mem_filter.mp h).1
  · exact h

theorem clearTimerForToast_key_ne {m : List (String × Int)} {toastId : String}
    {kv : String × Int} (h : kv ∈ ToastService.clearTimerForToast toastId m) :
    kv.1 ≠ toastId := by
  unfold ToastService.clearTimerForToast at h
  split at h
  · intro hk
    have := (List.mem_filter.mp h).2
    simp [hk] at this
  · next hnone =>
      intro hk
      have hfind : m.find? (fun e => e.1 = toastId) = Option.none := by
        simpa [mapGet, Option.map_eq_none'] using hnone
      have := List.find?_eq_none.mp hfind kv h
      simp [hk] at this

theorem clearTimerForToast_idem (toastId : String) (m : List (String × Int)) :
    ToastService.clearTimerForToast toastId
      (ToastService.clearTimerForToast toastId m)
        = ToastService.clearTimerForToast toastId m := by
  cases h : mapGet m toastId with
  | none =>
      rw [clearTimerForToast_eq_of_none h, clearTimerForToast_eq_of_none h]
  | some v =>
      rw [clearTimerForToast_eq_of_some h,
        clearTimerForToast_eq_of_none (mapGet_mapDelete_self m toastId)]

end Toastly

namespace Toastly

theorem validateProgressValue_ok {p : Int}
    (h0 : PROGRESS_MINIMUM_PERCENT ≤ p) (h100 : p ≤ PROGRESS_MAXIMUM_PERCENT) :
    ToastService.validateProgressValue p = .ok () := by
  unfold ToastService.validateProgressValue
  rw [if_pos ⟨h0, h100⟩]

theorem validateProgressValue_error {p : Int}
    (h : p < PROGRESS_MINIMUM_PERCENT ∨ PROGRESS_MAXIMUM_PERCENT < p) :
    ToastService.validateProgressValue p =
      .error (createToastError .INVALID_PROGRESS_VALUE
        (TOAST_ERROR_MESSAGES .INVALID_PROGRESS_VALUE)
        (some s!"Received: {p}%")) := by
  unfold ToastService.validateProgressValue
  rw [if_neg]
  intro hcon
  rcases hcon with ⟨hlo, hhi⟩
  rcases h with h | h
  · exact absurd hlo (not_le.mpr h)
  · exact absurd hhi (not_le.mpr h)

theorem validatePayload_duration_neg {payload : ToastPayload} {d : Int}
    (hd : payload.durationMs = some d) (hneg : d < 0) :
    ToastService.validatePayload payload =
      .error (createToastError .INVALID_DURATION
        (TOAST_ERROR_MESSAGES .INVALID_DURATION)
        (some s!"Received: {d}ms")) := by
  unfold ToastService.validatePayload
  rw [hd]
  simp only [if_pos hneg]
  rfl

theorem validatePayload_progress_invalid {payload : ToastPayload} {p : Int}
    (hp : payload.progressPercent = some p)
    (hout : p < PROGRESS_MINIMUM_PERCENT ∨ PROGRESS_MAXIMUM_PERCENT < p)
    (hdur : ∀ d, payload.durationMs = some d → 0 ≤ d) :
    ToastService.validatePayload payload =
      .error (createToastError .INVALID_PROGRESS_VALUE
        (TOAST_ERROR_MESSAGES .INVALID_PROGRESS_VALUE)
        (some s!"Received: {p}%")) := by
  unfold ToastService.validatePayload
  cases hdms : payload.durationMs with
  | none =>
      rw [hp]
      simpa using validateProgressValue_error hout
  | some d =>
      have hge := hdur d hdms
      rw [hp]
      simp only [not_lt.mpr hge, if_false, ite_false]
      simpa using validateProgressValue_error hout

theorem validatePayload_ok {payload : ToastPayload}
    (hd : ∀ d, payload.durationMs = some d → 0 ≤ d)
    (hp : ∀ p, payload.progressPercent = some p →
      PROGRESS_MINIMUM_PERCENT ≤ p ∧ p ≤ PROGRESS_MAXIMUM_PERCENT) :
    ToastService.validatePayload payload = .ok () := by
  unfold ToastService.validatePayload
  cases hdms : payload.durationMs with
  | none =>
      cases hpms : payload.progressPercent with
      | none => rfl
      | some p =>
          have := hp p hpms
          simpa using validateProgressValue_ok this.1 this.2
  | some d =>
      simp only [not_lt.mpr (hd d hdms), if_false, ite_false]
      cases hpms : payload.progressPercent with
      | none => rfl
      | some p =>
          have := hp p hpms
          simpa using validateProgressValue_ok this.1 this.2

theorem validatePayload_ok_duration {payload : ToastPayload}
    (h : ToastService.validatePayload payload = .ok ()) :
    ∀ d, payload.durationMs = some d → 0 ≤ d := by
  intro d hd
  by_contra hneg
  rw [validatePayload_duration_neg hd (by omega)] at h
  exact absurd h (by simp)

theorem showToast_eq_error {cfg : ToastGlobalConfig} {now : Int}
    {s : ToastState} {payload : ToastPayload} {e : ToastError}
    (h : ToastService.validatePayload payload = .error e) :
    ToastService.showToast cfg now s payload = .error e := by
  unfold ToastService.showToast
  rw [h]
  rfl

theorem showToast_eq_ok {cfg : ToastGlobalConfig} {now : Int}
    {s : ToastState} {payload : ToastPayload}
    (h : ToastService.validatePayload payload = .ok ()) :
    ToastService.showToast cfg now s payload =
      .ok ((ToastService.createToastFromPayload cfg now
              (s.toastIdCounter + 1) payload).id,
        { toastIdCounter := s.toastIdCounter + 1
          activeTimers := ToastService.scheduleAutoDismissIfNeeded
            (ToastService.createToastFromPayload cfg now
              (s.toastIdCounter + 1) payload) s.activeTimers
          toasts := ToastService.addToast cfg
            (ToastService.createToastFromPayload cfg now
              (s.toastIdCounter + 1) payload) s.toasts }) := by
  unfold ToastService.showToast
  rw [h]
  rfl

theorem jsSliceIndex_of_nonneg {i : Int} (len : Nat) (h : 0 ≤ i) :
    jsSliceIndex len i = min i.toNat len := by
  unfold jsSliceIndex
  rw [if_neg (not_lt.mpr h)]
  omega

theorem jsSliceIndex_neg_of_pos {i : Int} (len : Nat) (h : 0 < i) :
    jsSliceIndex len (-i) = len - i.toNat := by
  unfold jsSliceIndex
  rw [if_pos (by omega)]
  omega

end Toastly

namespace Toastly

theorem updateProgress_eq_error {toastId : String} {p : Int} {s : ToastState}
    {e : ToastError} (h : ToastService.validateProgressValue p = .error e) :
    ToastService.updateProgress toastId p s = .error e := by
  unfold ToastService.updateProgress
  rw [h]
  rfl

theorem updateProgress_eq_ok {toastId : String} {p : Int} {s : ToastState}
    (h : ToastService.validateProgressValue p = .ok ()) :
    ToastService.updateProgress toastId p s =
      .ok { s with
        toasts := s.toasts.map (fun t =>
          if t.id = toastId then { t with progressPercent := some p }
          else t) } := by
  unfold ToastService.updateProgress
  rw [h]
  rfl

/-- C9: `getDirectionFromPosition` maps each of the six canonical
positions to exactly one direction in {left, right, top, bottom}:
`top-left`/`bottom-left` to `left`, `top-right`/`bottom-right` to
`right`, `top-center` to `top` and `bottom-center` to `bottom`, the
`left`/`right` substring taking precedence over the leading word. -/
theorem getDirectionFromPosition_canonical :
    AnimationService.getDirectionFromPosition "top-left"
      = AnimationDirection.left ∧
    AnimationService.getDirectionFromPosition "bottom-left"
      = AnimationDirection.left ∧
    AnimationService.getDirectionFromPosition "top-right"
      = AnimationDirection.right ∧
    AnimationService.getDirectionFromPosition "bottom-right"
      = AnimationDirection.right ∧
    AnimationService.getDirectionFromPosition "top-center"
      = AnimationDirection.top ∧
    AnimationService.getDirectionFromPosition "bottom-center"
      = AnimationDirection.bottom := by
  exact ⟨by decide, by decide, by decide, by decide, by decide, by decide⟩

/-- C10: the rendered ARIA role is `alert` if and only if the toast's
type is `warning` or `danger`; `info` and `success` map to `status`, and
any type string missing from the role table falls back to `status`. -/
theorem ariaRole_alert_iff :
    (∀ t : ToastType,
      ToastItemComponent.ariaRole t.toLiteral = "alert" ↔
        t = ToastType.warning ∨ t = ToastType.danger) ∧
    ToastItemComponent.ariaRole ToastType.info.toLiteral = "status" ∧
    ToastItemComponent.ariaRole ToastType.success.toLiteral = "status" ∧
    (∀ ty : String,
      TOAST_ITEM_ROLES.find? (fun kv => kv.1 = ty) = Option.none →
      ToastItemComponent.ariaRole ty = "status") := by
  refine ⟨?_, by decide, by decide, ?_⟩
  · intro t
    cases t <;> decide
  · intro ty h
    simp [ToastItemComponent.ariaRole, h]

/-- Witness for C10: the `warning` row of the table yields `alert`, and a
type string outside the table falls back to `status`. -/
theorem ariaRole_alert_iff_witness :
    ToastItemComponent.ariaRole "warning" = "alert" ∧
    ToastItemComponent.ariaRole "custom-type" = "status" :=
  ⟨(ariaRole_alert_iff.1 ToastType.warning).mpr (Or.inl rfl),
   ariaRole_alert_iff.2.2.2 "custom-type" (by decide)⟩

/-- C8: under an active reduced-motion preference and with no custom
callback, `runEnterAnimation` and `runLeaveAnimation` execute the fade
preset regardless of the requested preset, at the reduced-motion duration
in place of the caller's requested duration. -/
theorem reducedMotion_forces_fade :
    ∀ (position : String) (preset : AnimationPreset)
      (durationMs : Option Int) (easing : Option String),
      AnimationService.runEnterAnimation true position preset Option.none
          durationMs easing
        = .preset .fadeAnimation
            (AnimationService.getDirectionFromPosition position)
            ANIMATION_REDUCED_MOTION_DURATION_MS
            (easing.getD ANIMATION_DEFAULT_EASING) ∧
      AnimationService.runLeaveAnimation true position preset Option.none
          durationMs easing
        = .preset .fadeAnimation
            (AnimationService.getDirectionFromPosition position)
            ANIMATION_REDUCED_MOTION_DURATION_MS
            (easing.getD ANIMATION_DEFAULT_EASING) := by
  intro position preset durationMs easing
  exact ⟨rfl, rfl⟩

/-- C6: evaluation at the failing input — with `pauseOnHover: false`, a
pointer entering (resp. leaving) a rendered toast still issues a
`pauseTimer` (resp. `resumeTimer`) call, because the container's
`(mouseenter)`/`(mouseleave)` bindings are unconditional; the item
component's own gated handlers contribute nothing. -/
theorem hover_ignores_pauseOnHover_flag :
    hoverEnterCalls { DEFAULT_TOAST_CONFIG with pauseOnHover := false }
        "toastly-0-1"
      = [TimerCall.pause "toastly-0-1"] ∧
    hoverLeaveCalls { DEFAULT_TOAST_CONFIG with pauseOnHover := false }
        "toastly-0-1"
      = [TimerCall.resume "toastly-0-1"] ∧
    ToastItemComponent.handleMouseEnter
        { DEFAULT_TOAST_CONFIG with pauseOnHover := false } "toastly-0-1"
      = [] ∧
    ToastItemComponent.handleMouseLeave
        { DEFAULT_TOAST_CONFIG with pauseOnHover := false } "toastly-0-1"
      = [] := by
  exact ⟨rfl, rfl, rfl, rfl⟩

end Toastly

namespace Toastly

/-- C1 counterexample: a `show` payload whose `durationMs` (-1) and
`progressPercent` (150) are both invalid fails with `INVALID_DURATION`,
not `INVALID_PROGRESS_VALUE`, because `durationMs` is validated first. -/
theorem show_both_invalid_reports_duration :
    ToastService.showToast DEFAULT_TOAST_CONFIG 0 initialState
        { message := "Test", durationMs := some (-1),
          progressPercent := some 150 }
      = .error (createToastError .INVALID_DURATION
          (TOAST_ERROR_MESSAGES .INVALID_DURATION) (some "Received: -1ms")) ∧
    ToastErrorCode.INVALID_DURATION ≠ ToastErrorCode.INVALID_PROGRESS_VALUE :=
  ⟨rfl, by decide⟩

/-- C1 (amended): `show` fails with `InvalidDuration` on any negative
`durationMs`; `updateProgress` fails with `InvalidProgressValue` on any
`percent` outside [0,100], and so does `show` provided its `durationMs`
(when given) is non-negative — when both fields are invalid the reported
error is `InvalidDuration`, as duration is validated first; the boundary
values 0 and 100 are accepted by both; and a failed `updateProgress`
leaves the stored state, in particular the toast's progress, unchanged. -/
theorem show_updateProgress_validation :
    (∀ (cfg : ToastGlobalConfig) (now : Int) (s : ToastState)
       (payload : ToastPayload) (d : Int),
      payload.durationMs = some d → d < 0 →
      ∃ e, ToastService.showToast cfg now s payload = .error e ∧
        e.code = .INVALID_DURATION) ∧
    (∀ (cfg : ToastGlobalConfig) (now : Int) (s : ToastState)
       (payload : ToastPayload) (p : Int),
      payload.progressPercent = some p →
      (p < PROGRESS_MINIMUM_PERCENT ∨ PROGRESS_MAXIMUM_PERCENT < p) →
      (∀ d, payload.durationMs = some d → 0 ≤ d) →
      ∃ e, ToastService.showToast cfg now s payload = .error e ∧
        e.code = .INVALID_PROGRESS_VALUE) ∧
    (∀ (toastId : String) (p : Int) (s : ToastState),
      (p < PROGRESS_MINIMUM_PERCENT ∨ PROGRESS_MAXIMUM_PERCENT < p) →
      ∃ e, ToastService.updateProgress toastId p s = .error e ∧
        e.code = .INVALID_PROGRESS_VALUE) ∧
    (∀ (cfg : ToastGlobalConfig) (now : Int) (s : ToastState)
       (message : String) (p : Int), p = 0 ∨ p = 100 →
      (ToastService.showToast cfg now s
        { message := message, progressPercent := some p }).isOk = true) ∧
    (∀ (toastId : String) (s : ToastState) (p : Int), p = 0 ∨ p = 100 →
      (ToastService.updateProgress toastId p s).isOk = true) ∧
    (∀ (cfg : ToastGlobalConfig) (s : ToastState) (toastId : String) (p : Int),
      (p < PROGRESS_MINIMUM_PERCENT ∨ PROGRESS_MAXIMUM_PERCENT < p) →
      step cfg s (.updateProgress toastId p) = s) := by
  refine ⟨?_, ?_, ?_, ?_, ?_, ?_⟩
  · intro cfg now s payload d hd hneg
    rw [showToast_eq_error (validatePayload_duration_neg hd hneg)]
    exact ⟨_, rfl, rfl⟩
  · intro cfg now s payload p hp hout hdur
    rw [showToast_eq_error (validatePayload_progress_invalid hp hout hdur)]
    exact ⟨_, rfl, rfl⟩
  · intro toastId p s hout
    rw [updateProgress_eq_error (validateProgressValue_error hout)]
    exact ⟨_, rfl, rfl⟩
  · intro cfg now s message p hb
    have hok : ToastService.validatePayload
        { message := message, progressPercent := some p } = .ok () := by
      apply validatePayload_ok
      · intro d hd
        exact absurd hd (by simp)
      · intro q hq
        simp only [Option.some.injEq] at hq
        subst hq
        rcases hb with rfl | rfl
        · exact ⟨le_refl _, by norm_num [PROGRESS_MINIMUM_PERCENT, PROGRESS_MAXIMUM_PERCENT]⟩
        · exact ⟨by norm_num [PROGRESS_MINIMUM_PERCENT, PROGRESS_MAXIMUM_PERCENT], le_refl _⟩
    rw [showToast_eq_ok hok]
    rfl
  · intro toastId s p hb
    have hok : ToastService.validateProgressValue p = .ok () := by
      apply validateProgressValue_ok <;>
        rcases hb with rfl | rfl <;>
          norm_num [PROGRESS_MINIMUM_PERCENT, PROGRESS_MAXIMUM_PERCENT]
    rw [updateProgress_eq_ok hok]
    rfl
  · intro cfg s toastId p hout
    simp [step, updateProgress_eq_error (validateProgressValue_error hout)]

/-- Witness for C1 (amended), at the concrete inputs of the spec's own
scenarios. -/
theorem show_updateProgress_validation_witness :
    (∃ e, ToastService.showToast DEFAULT_TOAST_CONFIG 0 initialState
        { message := "Test", durationMs := some (-1000) } = .error e ∧
        e.code = .INVALID_DURATION) ∧
    (∃ e, ToastService.showToast DEFAULT_TOAST_CONFIG 0 initialState
        { message := "Test", progressPercent := some 150 } = .error e ∧
        e.code = .INVALID_PROGRESS_VALUE) ∧
    (∃ e, ToastService.updateProgress "toastly-0-1" (-10) pairState
        = .error e ∧ e.code = .INVALID_PROGRESS_VALUE) ∧
    (ToastService.showToast DEFAULT_TOAST_CONFIG 0 initialState
      { message := "Test", progressPercent := some 0 }).isOk = true ∧
    (ToastService.updateProgress "toastly-0-1" 100 pairState).isOk = true ∧
    step DEFAULT_TOAST_CONFIG pairState (.updateProgress "toastly-0-1" 150)
      = pairState :=
  ⟨show_updateProgress_validation.1 DEFAULT_TOAST_CONFIG 0 initialState
      _ (-1000) rfl (by decide),
   show_updateProgress_validation.2.1 DEFAULT_TOAST_CONFIG 0 initialState
      _ 150 rfl (Or.inr (by decide)) (fun d hd => absurd hd (by simp)),
   show_updateProgress_validation.2.2.1 "toastly-0-1" (-10) pairState
      (Or.inl (by decide)),
   show_updateProgress_validation.2.2.2.1 DEFAULT_TOAST_CONFIG 0 initialState
      "Test" 0 (Or.inl rfl),
   show_updateProgress_validation.2.2.2.2.1 "toastly-0-1" pairState 100
      (Or.inr rfl),
   show_updateProgress_validation.2.2.2.2.2 DEFAULT_TOAST_CONFIG pairState
      "toastly-0-1" 150 (Or.inr (by decide))⟩

/-- C5: for a toast present in the collection with resolved
`durationMs > 0`, `resumeTimer` books a fresh timer for the full resolved
duration — in particular immediately after `pauseTimer`, so
pause-then-resume restarts the full delay rather than a remainder. -/
theorem resumeTimer_full_duration :
    ∀ (s : ToastState) (toastId : String) (t : Toast),
      s.toasts.find? (fun x => x.id = toastId) = some t →
      0 < t.durationMs →
      mapGet (ToastService.resumeTimer toastId s).activeTimers toastId
        = some t.durationMs ∧
      mapGet (ToastService.resumeTimer toastId
          (ToastService.pauseTimer toastId s)).activeTimers toastId
        = some t.durationMs := by
  intro s toastId t hfind hpos
  have hid : t.id = toastId := by simpa using List.find?_some hfind
  have hsched : ∀ m : List (String × Int),
      mapGet (ToastService.scheduleAutoDismissIfNeeded t m) toastId
        = some t.durationMs := by
    intro m
    unfold ToastService.scheduleAutoDismissIfNeeded
    rw [if_neg (not_le.mpr hpos), hid]
    exact mapGet_mapSet_self m toastId t.durationMs
  constructor
  · unfold ToastService.resumeTimer
    simp only [hfind, if_pos hpos]
    exact hsched s.activeTimers
  · unfold ToastService.resumeTimer ToastService.pauseTimer
    simp only [hfind, if_pos hpos]
    exact hsched _

/-- Witness for C5: the spec's scenario — a toast with `durationMs: 1000`,
`pauseTimer` immediately followed by `resumeTimer` books a full 1000ms
timer. -/
theorem resumeTimer_full_duration_witness :
    mapGet (ToastService.resumeTimer "toastly-7-1"
        (ToastService.pauseTimer "toastly-7-1" timedState)).activeTimers
        "toastly-7-1"
      = some 1000 :=
  (resumeTimer_full_duration timedState "toastly-7-1" timedToast
    (by decide) (by decide)).2

/-- C4: `dismiss` is idempotent and total: dismissing the same id twice
gives the same state as dismissing it once; dismissing an id not in the
collection leaves the collection unchanged; and a successful dismiss
removes exactly the matching toast, keeping the others in order. -/
theorem dismiss_idempotent :
    (∀ (s : ToastState) (toastId : String),
      ToastService.dismiss toastId (ToastService.dismiss toastId s)
        = ToastService.dismiss toastId s) ∧
    (∀ (s : ToastState) (toastId : String),
      (∀ t ∈ s.toasts, t.id ≠ toastId) →
      (ToastService.dismiss toastId s).toasts = s.toasts) ∧
    (∀ (s : ToastState) (toastId : String) (l1 l2 : List Toast) (t : Toast),
      s.toasts = l1 ++ t :: l2 → t.id = toastId →
      (∀ u ∈ l1, u.id ≠ toastId) → (∀ u ∈ l2, u.id ≠ toastId) →
      (ToastService.dismiss toastId s).toasts = l1 ++ l2) := by
  refine ⟨?_, ?_, ?_⟩
  · intro s toastId
    unfold ToastService.dismiss
    simp only [clearTimerForToast_idem, List.filter_filter]
    congr 1
    apply List.filter_congr
    intro t _
    simp
  · intro s toastId h
    show s.toasts.filter (fun t => t.id ≠ toastId) = s.toasts
    rw [List.filter_eq_self]
    intro t ht
    simpa using h t ht
  · intro s toastId l1 l2 t hs hid h1 h2
    show s.toasts.filter (fun u => u.id ≠ toastId) = l1 ++ l2
    rw [hs, List.filter_append]
    have e1 : l1.filter (fun u => u.id ≠ toastId) = l1 := by
      rw [List.filter_eq_self]
      intro u hu
      simpa using h1 u hu
    have e2 : (t :: l2).filter (fun u => u.id ≠ toastId) = l2 := by
      rw [List.filter_cons_of_neg (by simpa using hid)]
      rw [List.filter_eq_self]
      intro u hu
      simpa using h2 u hu
    rw [e1, e2]

/-- Witness for C4: on the two-toast state, a second dismiss of the same
id is a no-op, a dismiss of an unknown id changes nothing, and dismissing
the first created toast leaves exactly the other one. -/
theorem dismiss_idempotent_witness :
    ToastService.dismiss "toastly-0-1"
        (ToastService.dismiss "toastly-0-1" pairState)
      = ToastService.dismiss "toastly-0-1" pairState ∧
    (ToastService.dismiss "unknown-id" pairState).toasts = pairState.toasts ∧
    (ToastService.dismiss "toastly-0-1" pairState).toasts = [toastBeta] :=
  ⟨dismiss_idempotent.1 pairState "toastly-0-1",
   dismiss_idempotent.2.1 pairState "unknown-id" (by decide),
   dismiss_idempotent.2.2 pairState "toastly-0-1" [toastBeta] [] toastAlpha
     rfl rfl (by decide) (by decide)⟩

end Toastly

namespace Toastly

/-- C3: with `newestOnTop = true`, `show` prepends — after `show(a)` then
`show(b)` the first visible toast is `b`; and in the spec's scenario
(default config, ten `info()` calls) the full collection has length 10
while the 5 visible toasts are the 5 most recently created, newest first. -/
theorem newestOnTop_show_prepends :
    (∀ (cfg : ToastGlobalConfig) (s : ToastState) (pa pb : ToastPayload)
       (na nb : Int) (ida idb : String) (s1 s2 : ToastState),
      cfg.newestOnTop = true → 0 < cfg.maximumVisibleToasts →
      ToastService.showToast cfg na s pa = .ok (ida, s1) →
      ToastService.showToast cfg nb s1 pb = .ok (idb, s2) →
      ((ToastService.visibleToasts cfg s2.toasts).head?).map Toast.id
        = some idb) ∧
    tenInfoState.toasts.length = 10 ∧
    (ToastService.visibleToasts DEFAULT_TOAST_CONFIG
      tenInfoState.toasts).length = 5 ∧
    (ToastService.visibleToasts DEFAULT_TOAST_CONFIG tenInfoState.toasts).map
        Toast.id
      = ["toastly-0-10", "toastly-0-9", "toastly-0-8", "toastly-0-7",
         "toastly-0-6"] ∧
    ToastService.visibleToasts DEFAULT_TOAST_CONFIG tenInfoState.toasts
      = tenInfoState.toasts.take 5 := by
  refine ⟨?_, rfl, rfl, rfl, rfl⟩
  intro cfg s pa pb na nb ida idb s1 s2 hnew hmax _ hb
  cases hv : ToastService.validatePayload pb with
  | error e =>
      rw [showToast_eq_error hv] at hb
      exact absurd hb (by simp)
  | ok u =>
      obtain ⟨⟩ := u
      rw [showToast_eq_ok hv] at hb
      injection hb with hpair
      injection hpair with hidb hs2
      subst hidb
      subst hs2
      simp only [ToastService.addToast, hnew, if_true,
        ToastService.visibleToasts]
      have hpos : 0 < jsSliceIndex
          ((ToastService.createToastFromPayload cfg nb (s1.toastIdCounter + 1)
            pb) :: s1.toasts).length cfg.maximumVisibleToasts := by
        rw [jsSliceIndex_of_nonneg _ (le_of_lt hmax)]
        simp only [List.length_cons]
        omega
      obtain ⟨n, hn⟩ := Nat.exists_eq_succ_of_ne_zero
        (Nat.pos_iff_ne_zero.mp hpos)
      rw [hn, List.take_succ_cons]
      rfl

/-- Witness for C3 at `info('First')` then `info('Second')` under the
default configuration: the first visible toast is the second one. -/
theorem newestOnTop_show_prepends_witness :
    ((ToastService.visibleToasts DEFAULT_TOAST_CONFIG
        pairState.toasts).head?).map Toast.id
      = some "toastly-0-2" :=
  newestOnTop_show_prepends.1 DEFAULT_TOAST_CONFIG initialState
    { message := "First", toastType := some ToastType.info }
    { message := "Second", toastType := some ToastType.info }
    0 0 "toastly-0-1" "toastly-0-2" singleState pairState rfl (by decide)
    (by rfl) (by rfl)

end Toastly

namespace Toastly

theorem mem_addToast_of_mem {cfg : ToastGlobalConfig} {toast t : Toast}
    {toasts : List Toast} (h : t ∈ toasts) :
    t ∈ ToastService.addToast cfg toast toasts := by
  unfold ToastService.addToast
  split
  · exact List.mem_cons_of_mem _ h
  · exact List.mem_append_left _ h

theorem self_mem_addToast {cfg : ToastGlobalConfig} {toast : Toast}
    {toasts : List Toast} : toast ∈ ToastService.addToast cfg toast toasts := by
  unfold ToastService.addToast
  split
  · exact List.mem_cons_self _ _
  · exact List.mem_append_right _ (List.mem_singleton.mpr rfl)

/-- C2 counterexample: under the configuration
`{maximumVisibleToasts: 0, newestOnTop: false}` the state reached by a
single `show({message: 'x'})` has every tracked toast visible —
`slice(-0)` is `slice(0)` — so `visibleToasts().length ≤
maximumVisibleToasts` fails. -/
theorem visibleToasts_bound_fails_at_zero :
    Reachable windowConfigZero windowStateOne ∧
    windowStateOne.toasts.length = 1 ∧
    (ToastService.visibleToasts windowConfigZero
      windowStateOne.toasts).length = 1 ∧
    ¬(((ToastService.visibleToasts windowConfigZero
          windowStateOne.toasts).length : Int)
        ≤ windowConfigZero.maximumVisibleToasts) :=
  ⟨⟨[.show { message := "x" } 0], rfl⟩, rfl, rfl, by decide⟩

/-- C2 (amended): whenever `maximumVisibleToasts > 0`, at every reachable
state `visibleToasts()` has length at most `maximumVisibleToasts`, is a
sublist (a view, never truncating the underlying collection — a valid
`show` always grows the collection by exactly one), and the window is the
first `maximumVisibleToasts` of the ordered collection if `newestOnTop`
and the last `maximumVisibleToasts` otherwise.  (With
`maximumVisibleToasts = 0` and `newestOnTop = false` the bound fails:
`slice(-0)` degenerates to `slice(0)`.) -/
theorem visibleToasts_window :
    ∀ (cfg : ToastGlobalConfig) (s : ToastState), Reachable cfg s →
      0 < cfg.maximumVisibleToasts →
      ((ToastService.visibleToasts cfg s.toasts).length : Int)
        ≤ cfg.maximumVisibleToasts ∧
      (ToastService.visibleToasts cfg s.toasts).Sublist s.toasts ∧
      (cfg.newestOnTop = true →
        ToastService.visibleToasts cfg s.toasts
          = s.toasts.take cfg.maximumVisibleToasts.toNat) ∧
      (cfg.newestOnTop = false →
        ToastService.visibleToasts cfg s.toasts
          = s.toasts.drop
              (s.toasts.length - cfg.maximumVisibleToasts.toNat)) ∧
      (∀ (payload : ToastPayload) (now : Int),
        ToastService.validatePayload payload = .ok () →
        (step cfg s (.show payload now)).toasts.length
          = s.toasts.length + 1) := by
  intro cfg s _ hmax
  have hgrow : ∀ (payload : ToastPayload) (now : Int),
      ToastService.validatePayload payload = .ok () →
      (step cfg s (.show payload now)).toasts.length
        = s.toasts.length + 1 := by
    intro payload now hv
    simp only [step, showToast_eq_ok hv]
    unfold ToastService.addToast
    split
    · simp
    · simp
  cases hnew : cfg.newestOnTop with
  | true =>
      have hvt : ToastService.visibleToasts cfg s.toasts
          = s.toasts.take
              (min cfg.maximumVisibleToasts.toNat s.toasts.length) := by
        unfold ToastService.visibleToasts
        rw [hnew, if_pos rfl, jsSliceIndex_of_nonneg _ (le_of_lt hmax)]
      rw [hvt]
      refine ⟨?_, List.take_sublist _ _, ?_, ?_, hgrow⟩
      · rw [List.length_take]
        omega
      · intro _
        rcases le_or_lt cfg.maximumVisibleToasts.toNat s.toasts.length
          with h | h
        · rw [Nat.min_eq_left h]
        · rw [Nat.min_eq_right (le_of_lt h),
            List.take_of_length_le (le_refl _),
            List.take_of_length_le (le_of_lt h)]
      · intro hfalse
        exact absurd hfalse (by simp)
  | false =>
      have hvt : ToastService.visibleToasts cfg s.toasts
          = s.toasts.drop
              (s.toasts.length - cfg.maximumVisibleToasts.toNat) := by
        unfold ToastService.visibleToasts
        rw [hnew, if_neg (by simp : ¬(false = true)),
          jsSliceIndex_neg_of_pos _ hmax]
      rw [hvt]
      refine ⟨?_, List.drop_sublist _ _, ?_, ?_, hgrow⟩
      · rw [List.length_drop]
        omega
      · intro htrue
        exact absurd htrue (by simp)
      · intro _
        rfl

/-- Witness for C2 (amended): the bound instantiated on the two-toast
state under the default configuration. -/
theorem visibleToasts_window_witness :
    ((ToastService.visibleToasts DEFAULT_TOAST_CONFIG
        pairState.toasts).length : Int)
      ≤ DEFAULT_TOAST_CONFIG.maximumVisibleToasts :=
  (visibleToasts_window DEFAULT_TOAST_CONFIG pairState
    ⟨[.show { message := "First", toastType := some ToastType.info } 0,
      .show { message := "Second", toastType := some ToastType.info } 0],
      by rfl⟩
    (by decide)).1

end Toastly

namespace Toastly

theorem timersInv_initial : TimersInv initialState := by
  intro kv hkv
  simp [initialState] at hkv

theorem timersInv_dismiss {s : ToastState} (h : TimersInv s)
    (toastId : String) : TimersInv (ToastService.dismiss toastId s) := by
  intro kv hkv
  have hk : kv ∈ s.activeTimers := mem_clearTimerForToast hkv
  have hne : kv.1 ≠ toastId := clearTimerForToast_key_ne hkv
  obtain ⟨t, ht, hid, hpos⟩ := h kv hk
  refine ⟨t, ?_, hid, hpos⟩
  show t ∈ s.toasts.filter (fun u => u.id ≠ toastId)
  rw [List.mem_filter]
  refine ⟨ht, ?_⟩
  simp only [decide_eq_true_eq]
  rw [hid]
  exact hne

theorem timersInv_step {cfg : ToastGlobalConfig} {s : ToastState}
    (h : TimersInv s) : ∀ e : Event, TimersInv (step cfg s e) := by
  intro e
  rcases e with ⟨payload, now⟩ | toastId | _ | ⟨toastId, p⟩ | toastId
    | toastId | toastId
  · cases hv : ToastService.validatePayload payload with
      | error err => simpa [step, showToast_eq_error hv] using h
      | ok u =>
          obtain ⟨⟩ := u
          simp only [step, showToast_eq_ok hv]
          intro kv hkv
          by_cases hdur : (ToastService.createToastFromPayload cfg now
              (s.toastIdCounter + 1) payload).durationMs ≤ 0
          · unfold ToastService.scheduleAutoDismissIfNeeded at hkv
            rw [if_pos hdur] at hkv
            obtain ⟨t, ht, hid, hpos⟩ := h kv hkv
            exact ⟨t, mem_addToast_of_mem ht, hid, hpos⟩
          · unfold ToastService.scheduleAutoDismissIfNeeded at hkv
            rw [if_neg hdur] at hkv
            rcases mem_mapSet hkv with rfl | hkv'
            · exact ⟨_, self_mem_addToast, rfl, by omega⟩
            · obtain ⟨t, ht, hid, hpos⟩ := h kv hkv'
              exact ⟨t, mem_addToast_of_mem ht, hid, hpos⟩
  · exact timersInv_dismiss h toastId
  · intro kv hkv
    simp [step, ToastService.dismissAll] at hkv
  · cases hv : ToastService.validateProgressValue p with
    | error err => simpa [step, updateProgress_eq_error hv] using h
    | ok u =>
        obtain ⟨⟩ := u
        simp only [step, updateProgress_eq_ok hv]
        intro kv hkv
        obtain ⟨t, ht, hid, hpos⟩ := h kv hkv
        refine ⟨if t.id = toastId then { t with progressPercent := some p }
          else t, List.mem_map.mpr ⟨t, ht, rfl⟩, ?_, ?_⟩
        · by_cases hti : t.id = toastId
          · rw [if_pos hti]
            exact hid
          · rw [if_neg hti]
            exact hid
        · by_cases hti : t.id = toastId
          · rw [if_pos hti]
            exact hpos
          · rw [if_neg hti]
            exact hpos
  · intro kv hkv
    exact h kv (mem_clearTimerForToast hkv)
  · intro kv hkv
    cases hfind : s.toasts.find? (fun t => t.id = toastId) with
    | none =>
        simp only [step, ToastService.resumeTimer, hfind] at hkv ⊢
        exact h kv hkv
    | some toast =>
        have htmem : toast ∈ s.toasts := List.mem_of_find?_eq_some hfind
        by_cases hpos : toast.durationMs > 0
        · simp only [step, ToastService.resumeTimer, hfind, hpos,
            if_true] at hkv ⊢
          unfold ToastService.scheduleAutoDismissIfNeeded at hkv
          rw [if_neg (by omega)] at hkv
          rcases mem_mapSet hkv with rfl | hkv2
          · exact ⟨toast, htmem, rfl, hpos⟩
          · exact h kv hkv2
        · simp only [step, ToastService.resumeTimer, hfind, hpos,
            if_false] at hkv ⊢
          exact h kv hkv
  · cases hget : mapGet s.activeTimers toastId with
    | none => simpa [step, hget] using h
    | some v =>
        simp only [step, hget]
        exact timersInv_dismiss h toastId

theorem timersInv_reachable {cfg : ToastGlobalConfig} {s : ToastState}
    (h : Reachable cfg s) : TimersInv s := by
  obtain ⟨events, rfl⟩ := h
  suffices hgen : ∀ (es : List Event) (s0 : ToastState), TimersInv s0 →
      TimersInv (es.foldl (step cfg) s0) from
    hgen events initialState timersInv_initial
  intro es
  induction es with
  | nil => intro s0 h0; exact h0
  | cons e es ih => intro s0 h0; exact ih _ (timersInv_step h0 e)

theorem resolveDuration_nonneg {cfg : ToastGlobalConfig}
    (hdef : 0 ≤ cfg.defaultDurationMs) {dm : Option Int}
    (h : ∀ d, dm = some d → 0 ≤ d) :
    0 ≤ ToastService.resolveDuration cfg dm := by
  cases dm with
  | none => exact hdef
  | some d =>
      show 0 ≤ if d = 0 then 0 else max d TOAST_MINIMUM_DURATION_MS
      by_cases h0 : d = 0
      · simp [h0]
      · rw [if_neg h0]
        have hmin : TOAST_MINIMUM_DURATION_MS = (1000 : Int) := rfl
        omega

end Toastly

namespace Toastly

/-- C7: every accepted payload resolves to a non-negative `durationMs`
(given a non-negative configured default); a requested positive duration
below `TOAST_MINIMUM_DURATION_MS = 1000` is floored up to 1000 while
durations at or above it are kept; `durationMs: 0` stays 0 and such a
toast is never auto-dismissed — at any reachable state a timer firing
can only be booked for a toast with positive duration, so for an id
whose toasts all have `durationMs = 0` the fire event is a no-op. -/
theorem duration_resolution :
    (∀ (cfg : ToastGlobalConfig) (now : Int) (s : ToastState)
       (payload : ToastPayload) (toastId : String) (s' : ToastState),
      0 ≤ cfg.defaultDurationMs →
      ToastService.showToast cfg now s payload = .ok (toastId, s') →
      ∃ t ∈ s'.toasts, t.id = toastId ∧
        t.durationMs = ToastService.resolveDuration cfg payload.durationMs ∧
        0 ≤ t.durationMs) ∧
    (∀ (cfg : ToastGlobalConfig) (d : Int),
      0 < d → d < TOAST_MINIMUM_DURATION_MS →
      ToastService.resolveDuration cfg (some d) = TOAST_MINIMUM_DURATION_MS) ∧
    (∀ (cfg : ToastGlobalConfig) (d : Int), TOAST_MINIMUM_DURATION_MS ≤ d →
      ToastService.resolveDuration cfg (some d) = d) ∧
    (∀ cfg : ToastGlobalConfig,
      ToastService.resolveDuration cfg (some 0) = 0) ∧
    (∀ (cfg : ToastGlobalConfig) (s : ToastState) (toastId : String),
      Reachable cfg s →
      (∀ t ∈ s.toasts, t.id = toastId → t.durationMs = 0) →
      step cfg s (.timerFire toastId) = s) := by
  have hmin : TOAST_MINIMUM_DURATION_MS = (1000 : Int) := rfl
  refine ⟨?_, ?_, ?_, ?_, ?_⟩
  · intro cfg now s payload toastId s' hdef hok
    cases hv : ToastService.validatePayload payload with
    | error e =>
        rw [showToast_eq_error hv] at hok
        exact absurd hok (by simp)
    | ok u =>
        obtain ⟨⟩ := u
        rw [showToast_eq_ok hv] at hok
        injection hok with hpair
        injection hpair with hid hs
        subst hid
        subst hs
        exact ⟨ToastService.createToastFromPayload cfg now
            (s.toastIdCounter + 1) payload,
          self_mem_addToast, rfl, rfl,
          resolveDuration_nonneg hdef (validatePayload_ok_duration hv)⟩
  · intro cfg d h0 hlt
    show (if d = 0 then 0 else max d TOAST_MINIMUM_DURATION_MS)
      = TOAST_MINIMUM_DURATION_MS
    rw [if_neg (by omega)]
    omega
  · intro cfg d hge
    show (if d = 0 then 0 else max d TOAST_MINIMUM_DURATION_MS) = d
    rw [if_neg (by omega)]
    omega
  · intro cfg
    rfl
  · intro cfg s toastId hreach hzero
    cases hget : mapGet s.activeTimers toastId with
    | none => simp [step, hget]
    | some v =>
        exfalso
        have hinv := timersInv_reachable hreach
        unfold mapGet at hget
        cases hfind : s.activeTimers.find? (fun kv => kv.1 = toastId) with
        | none =>
            rw [hfind] at hget
            simp at hget
        | some kv =>
            have hk1 : kv.1 = toastId := by
              simpa using List.find?_some hfind
            obtain ⟨t, ht, hid2, hpos⟩ :=
              hinv kv (List.mem_of_find?_eq_some hfind)
            have := hzero t ht (hid2.trans hk1)
            omega

/-- Witness for C7: the default config resolves an omitted duration to
5000 (non-negative), floors 500 up to 1000, keeps 3000, and a
`timerFire` for an absent toast does nothing. -/
theorem duration_resolution_witness :
    (∃ t ∈ singleState.toasts, t.id = "toastly-0-1" ∧
      t.durationMs
        = ToastService.resolveDuration DEFAULT_TOAST_CONFIG Option.none ∧
      0 ≤ t.durationMs) ∧
    ToastService.resolveDuration DEFAULT_TOAST_CONFIG (some 500)
      = TOAST_MINIMUM_DURATION_MS ∧
    ToastService.resolveDuration DEFAULT_TOAST_CONFIG (some 3000) = 3000 ∧
    step DEFAULT_TOAST_CONFIG initialState (.timerFire "toastly-0-1")
      = initialState :=
  ⟨duration_resolution.1 DEFAULT_TOAST_CONFIG 0 initialState
      { message := "First", toastType := some ToastType.info }
      "toastly-0-1" singleState (by decide) (by rfl),
   duration_resolution.2.1 DEFAULT_TOAST_CONFIG 500 (by decide) (by decide),
   duration_resolution.2.2.1 DEFAULT_TOAST_CONFIG 3000 (by decide),
   duration_resolution.2.2.2.2 DEFAULT_TOAST_CONFIG initialState
      "toastly-0-1" ⟨[], rfl⟩
      (by intro t ht _; simp [initialState] at ht)⟩

end Toastly
